import Mathlib

/-!
Verification development for the catalog-generation orchestration engine
(`src/pipeline.py`, `src/generators/*.py`, `src/utils/id_generator.py`,
`src/utils/name_validator.py`).

The Python source is shallowly embedded: every mutable registry
(`IDGenerator.used_ids`, `NameValidator.used_names`) becomes explicitly
threaded state, the random/uuid sources and the external LLM become
oracle streams supplied as arguments, and exceptions become `Except` /
`Option` results.
-/

namespace Catalog

/-- Python `str.lower()` (ASCII-relevant part), as a map over the
character list. -/
def pyLower (s : String) : String := ⟨s.data.map Char.toLower⟩

/-- Python `str.strip()`: remove leading and trailing whitespace. -/
def pyStrip (s : String) : String :=
  ⟨((s.data.dropWhile Char.isWhitespace).reverse.dropWhile Char.isWhitespace).reverse⟩

/-- Python `name.lower().strip()` — the normalisation used by
`NameValidator.add_name` and `NameValidator.is_unique` before comparing
names. -/
def norm (s : String) : String := pyStrip (pyLower s)

/-- Python `str.split()` with no separator: split on runs of whitespace,
dropping empty fragments. -/
def wordsAux : List Char → List Char → List String
  | [], acc => if acc.isEmpty then [] else [⟨acc.reverse⟩]
  | c :: rest, acc =>
    if c.isWhitespace then
      if acc.isEmpty then wordsAux rest [] else ⟨acc.reverse⟩ :: wordsAux rest []
    else wordsAux rest (c :: acc)

/-- Python `name.split()`. -/
def wordsOf (name : String) : List String := wordsAux name.data []

/-! ## IDGenerator (`src/utils/id_generator.py`)

`generate_brand_ids` / `generate_collection_ids` / `generate_product_ids` /
`generate_review_ids` all share one shape: for each of `count` slots, draw
`f"<pfx>_{uuid4().hex[:8]}"` and redraw while the candidate is in the
instance's `used_ids` set; then record it as used and append it.  The uuid
source is modelled as a stream (`List String`) of suffixes consumed left to
right; the unbounded `while` loop is modelled by searching the remaining
stream, returning `none` if the (finite) stream is exhausted before an
unused suffix appears. -/

/-- One slot of the rejection-sampling loop: keep drawing suffixes from the
stream until `pfx ++ "_" ++ suffix` is not in `used`; return the fresh id
and the unconsumed remainder of the stream. -/
def drawFresh (pfx : String) (used : List String) : List String → Option (String × List String)
  | [] => none
  | s :: rest =>
    let cand := pfx ++ "_" ++ s
    if cand ∈ used then drawFresh pfx used rest else some (cand, rest)

/-- `IDGenerator.generate_<type>_ids(count)` with used-set `used` and uuid
stream `stream`: returns the ordered id list, the updated used-set and the
unconsumed stream.  The used-set is threaded (the Python `self.used_ids`
persists on the instance). -/
def generateIds (pfx : String) : ℕ → List String → List String →
    Option (List String × List String × List String)
  | 0, used, stream => some ([], used, stream)
  | n + 1, used, stream =>
    match drawFresh pfx used stream with
    | none => none
    | some (i, rest) =>
      match generateIds pfx n (i :: used) rest with
      | none => none
      | some (ids, used2, rest2) => some (i :: ids, used2, rest2)

/-! ## ProportionalPlanner (`src/pipeline.py`, `CatalogPipeline.run` lines 66-73)

Pure arithmetic on Python ints (here `ℕ`; all quantities are nonnegative
and `//` is `Nat` division). -/

/-- Result record of the count computation at the top of `CatalogPipeline.run`. -/
structure PlanResult where
  brandCount : ℕ
  collectionCount : ℕ
  reviewsPerProduct : ℕ
  totalReviews : ℕ
deriving Repr, DecidableEq

/-- Lines 66-73 of `src/pipeline.py`:
`brand_count = max(2, (total_products + 99) // 100)`,
`min_collections = brand_count * 2`,
`max_collections = (total_products + 99) // 100`,
`collection_count = max(min_collections, max_collections)`,
`reviews_per_product = max(2, min(5, 10000 // total_products))`,
`total_reviews = total_products * reviews_per_product`. -/
def plan (totalProducts : ℕ) : PlanResult :=
  let brandCount := max 2 ((totalProducts + 99) / 100)
  let minCollections := brandCount * 2
  let maxCollections := (totalProducts + 99) / 100
  let collectionCount := max minCollections maxCollections
  let reviewsPerProduct := max 2 (min 5 (10000 / totalProducts))
  { brandCount := brandCount
    collectionCount := collectionCount
    reviewsPerProduct := reviewsPerProduct
    totalReviews := totalProducts * reviewsPerProduct }

/-! ## NameValidator and name deduplication (`src/utils/name_validator.py`)

`NameValidator` keeps `used_names : Set[str]` of lowercased-stripped names.
The set is modelled as a `List String` of normalised names to which a name
is appended only when not already present, so list length equals the Python
`len(self.used_names)`.  The `name_patterns` counter is never read anywhere
in the repository and is omitted. -/

/-- Python exceptions that can escape the orchestration code. -/
inductive PyErr where
  /-- e.g. calling `.split` on a `list` value. -/
  | attributeError : PyErr
  /-- e.g. calling a function with an unexpected keyword argument. -/
  | typeError : PyErr
deriving Repr, DecidableEq

/-- `NameValidator.is_unique`: the normalised name is not in the used set. -/
def isUnique (used : List String) (name : String) : Bool :=
  decide (norm name ∉ used)

/-- `NameValidator.add_name`: add the normalised name to the used set
(a Python `set.add`: a no-op when already present). -/
def addName (used : List String) (name : String) : List String :=
  if norm name ∈ used then used else norm name :: used

/-- Strategy-1 modifier list of `get_name_suggestions`. -/
def modifiers : List String :=
  ["Classic", "Modern", "Premium", "Essential", "Signature",
   "Heritage", "Contemporary", "Refined", "Elegant", "Casual"]

/-- Strategy-2 style descriptor list of `get_name_suggestions`. -/
def styleDescriptors : List String :=
  ["Relaxed", "Slim", "Tailored", "Oversized", "Fitted",
   "Comfortable", "Structured", "Flexible", "Adaptive"]

/-- Strategy-3 lookup `category_terms.get(category, ["Classic"])`. -/
def categoryTerms (category : String) : List String :=
  if category = "Everyday Apparel" then ["Daily", "Versatile", "Essential"]
  else if category = "Work & Evening Wear" then ["Professional", "Polished", "Sophisticated"]
  else if category = "Active & Outdoor Layers" then ["Performance", "Active", "Outdoor"]
  else if category = "Everyday Outerwear" then ["Layered", "Protective", "Comfortable"]
  else if category = "Accessories" then ["Stylish", "Functional", "Versatile"]
  else if category = "Footwear" then ["Comfortable", "Durable", "Stylish"]
  else ["Classic"]

/-- Strategy-4 lookup `gender_terms.get(gender, [])`. -/
def genderTerms (gender : String) : List String :=
  if gender = "men" then ["Men\x27s", "Masculine", "Gentleman\x27s"]
  else if gender = "women" then ["Women\x27s", "Feminine", "Lady\x27s"]
  else if gender = "unisex" then ["Unisex", "Universal", "Gender-neutral"]
  else []

/-- `_parse_name_components(name).get('item_type', '')`: the words of the
name after the first two, or `''` when the name has fewer than three words. -/
def itemTypeOf (name : String) : String :=
  let ws := wordsOf name
  if 3 ≤ ws.length then String.intercalate " " (ws.drop 2) else ""

/-- The candidate names tried by `get_name_suggestions`, in source order:
strategy 1 `f"{modifier} {base_name}"`, strategy 2
`f"{color} {descriptor} {item_type}"`, strategy 3
`f"{color} {term} {item_type}"`, strategy 4 `f"{term} {base_name}"`. -/
def productCandidates (base category gender color : String) : List String :=
  (modifiers.map fun m => m ++ " " ++ base) ++
  (styleDescriptors.map fun d => color ++ " " ++ d ++ " " ++ itemTypeOf base) ++
  ((categoryTerms category).map fun t => color ++ " " ++ t ++ " " ++ itemTypeOf base) ++
  ((genderTerms gender).map fun t => t ++ " " ++ base)

/-- `NameValidator.get_name_suggestions`: the Python loops append each
candidate that passes `is_unique`, in `productCandidates` order, stopping
once five suggestions are collected (each later strategy is guarded by
`len(suggestions) < 5` and every append is followed by a `>= 5` break), and
return `suggestions[:5]` — i.e. the first five unique candidates. -/
def get_name_suggestions (used : List String) (base category gender color : String) :
    List String :=
  ((productCandidates base category gender color).filter (fun c => isUnique used c)).take 5

/-- A parsed JSON element of a product batch, as produced by the external
generation capability.  `wellFormed` abstracts the pydantic checks on the
fields the orchestrator never inspects (description, price, sizes, ...). -/
structure ProductData where
  id : Option String
  name : String
  category : String
  gender : String
  colors : List String
  brand_id : String
  collection_id : String
  wellFormed : Bool
deriving Repr, DecidableEq

/-- A validated `Product` (`src/schema.py`), restricted to the fields the
orchestration engine reads. -/
structure Product where
  id : String
  name : String
  category : String
  gender : String
  colors : List String
  brand_id : String
  collection_id : String
deriving Repr, DecidableEq

/-- The color extraction of `deduplicate_product_names`:
`product.get('colors', '').split('|')[0] if product.get('colors') else ''`.
In the generator pipeline the dictionaries come from `Product.dict()`, so
`colors` is a Python `list`: an empty list is falsy and yields `''`; a
non-empty list has no `.split` attribute and raises `AttributeError`. -/
def colorOf (colors : List String) : Except PyErr String :=
  match colors with
  | [] => Except.ok ""
  | _ :: _ => Except.error PyErr.attributeError

/-- The loop body of `deduplicate_product_names` threading the validator
state: keep a unique name; otherwise rename to `suggestions[0]`, falling
back to `f"{original_name} (Style {len(validator.used_names) + 1})"`. -/
def dedupProductsGo : List String → List Product → Except PyErr (List Product)
  | _, [] => Except.ok []
  | used, p :: rest =>
    if isUnique used p.name then
      (dedupProductsGo (addName used p.name) rest).map (fun out => p :: out)
    else
      match colorOf p.colors with
      | Except.error e => Except.error e
      | Except.ok color =>
        match get_name_suggestions used p.name p.category p.gender color with
        | newName :: _ =>
          (dedupProductsGo (addName used newName) rest).map
            (fun out => { p with name := newName } :: out)
        | [] =>
          let newName := p.name ++ " (Style " ++ toString (used.length + 1) ++ ")"
          (dedupProductsGo (addName used newName) rest).map
            (fun out => { p with name := newName } :: out)

/-- `deduplicate_product_names` (`src/utils/name_validator.py` lines
302-344): runs over the list with a fresh `NameValidator`. -/
def deduplicate_product_names (ps : List Product) : Except PyErr (List Product) :=
  dedupProductsGo [] ps

/-! ## ProductGenerator (`src/generators/product_gen.py`) -/

/-- The id-forcing loop of `_generate_batch_with_retry` (lines 201-205):
`expected_id = product_ids[i] if i < len(product_ids) else None`, and when
`expected_id` is truthy (pre-allocated ids are nonempty strings of the form
`product_<hex>`) the element's id is overwritten with it.  Elements at
positions beyond the pre-allocated id list keep whatever id the generation
capability supplied. -/
def forceIds : List String → List ProductData → List ProductData
  | _, [] => []
  | [], d :: ds => d :: forceIds [] ds
  | e :: ids, d :: ds => { d with id := some e } :: forceIds ids ds

/-- `Product(**product_data)` under `except (ValueError, TypeError)`:
pydantic rejects an element with a missing `id`; validation of the
remaining required fields is abstracted by the element's `wellFormed`
flag.  A renamed product (only its `name` changed) always re-validates. -/
def mkProduct (d : ProductData) : Option Product :=
  match d.id with
  | none => none
  | some i =>
    if d.wellFormed then
      some { id := i, name := d.name, category := d.category, gender := d.gender,
             colors := d.colors, brand_id := d.brand_id, collection_id := d.collection_id }
    else none

/-- The `for attempt in range(self.max_retries)` loop head shared by the
product and review batch generators: return the first successfully parsed
payload among attempts `k, k+1, ...` with `fuel` attempts remaining
(`attempts j = none` models a parse failure of attempt `j`, caught by the
`except` clause and retried). -/
def firstParse {α : Type} (attempts : ℕ → Option α) : ℕ → ℕ → Option α
  | _, 0 => none
  | k, fuel + 1 =>
    match attempts k with
    | some ds => some ds
    | none => firstParse attempts (k + 1) fuel

/-- `ProductGenerator._generate_batch_with_retry`: `attempts k` is the parsed
payload of attempt `k` (`none` models a `json.JSONDecodeError`/`ValueError`
during the attempt, which the `except` clause catches and retries).  The
loop makes at most `maxRetries` attempts; on the first parse success it
forces ids, validates elements individually (invalid elements are skipped,
the rest kept) and applies the intra-batch `deduplicate_product_names`; if
every attempt fails to parse it returns `[]` without raising. -/
def batchWithRetry (maxRetries : ℕ) (ids : List String)
    (attempts : ℕ → Option (List ProductData)) : Except PyErr (List Product) :=
  match firstParse attempts 0 maxRetries with
  | none => Except.ok []
  | some ds => deduplicate_product_names ((forceIds ids ds).filterMap mkProduct)

/-- Lines 78-82 of `generate_products`: when `brand_ids` is empty, warn and
use the placeholder `"default_brand"`; otherwise `random.choice(brand_ids)`
(the random draw is modelled by an oracle index reduced mod the length). -/
def selectBrandRef (brand_ids : List String) (pick : ℕ) : String :=
  if brand_ids = [] then "default_brand"
  else brand_ids.getD (pick % brand_ids.length) ""

/-- Lines 84-88 of `generate_products`: the collection analogue, with
placeholder `"default_collection"`. -/
def selectCollectionRef (collection_ids : List String) (pick : ℕ) : String :=
  if collection_ids = [] then "default_collection"
  else collection_ids.getD (pick % collection_ids.length) ""

/-- Per-batch oracle for the external capability: the `random.choice` draws
for the batch's brand/collection prompt parameters, and the parse outcome
of each retry attempt. -/
structure ProductBatchOracle where
  brandPick : ℕ
  collectionPick : ℕ
  attempts : ℕ → Option (List ProductData)

/-- Outcome of a run fragment: a normal value, a Python exception
propagating out, or exhaustion of the finite uuid-suffix stream (a
modelling artifact standing for the unbounded rejection-sampling loop). -/
inductive RunResult (α : Type) where
  | ok : α → RunResult α
  | exn : PyErr → RunResult α
  | outOfFuel : RunResult α
deriving Repr, DecidableEq

/-- The batch loop of `generate_products` (lines 70-111), over the batch
indices `range(num_batches)`: compute
`batch_count = min(batch_size, total_count - len(products))`, pre-allocate
that many product ids (the `IDGenerator` used-set and uuid stream are
threaded through the whole run), select the batch's brand/collection prompt
references, run `_generate_batch_with_retry`, extend the accumulator, and
break once `len(products) >= total_count`.  The selected references only
parameterise the prompt; the capability's output is the oracle's payload. -/
def generateProductsLoop (maxRetries batchSize totalCount : ℕ)
    (brand_ids collection_ids : List String) (oracle : ℕ → ProductBatchOracle) :
    List ℕ → List Product → List String → List String →
    RunResult (List Product × List String × List String)
  | [], products, used, stream => RunResult.ok (products, used, stream)
  | bi :: rest, products, used, stream =>
    let batchCount := min batchSize (totalCount - products.length)
    match generateIds "product" batchCount used stream with
    | none => RunResult.outOfFuel
    | some (batchIds, used2, stream2) =>
      let _brandRef := selectBrandRef brand_ids (oracle bi).brandPick
      let _collectionRef := selectCollectionRef collection_ids (oracle bi).collectionPick
      match batchWithRetry maxRetries batchIds (oracle bi).attempts with
      | Except.error e => RunResult.exn e
      | Except.ok batchProducts =>
        let products2 := products ++ batchProducts
        if totalCount ≤ products2.length then RunResult.ok (products2, used2, stream2)
        else
          generateProductsLoop maxRetries batchSize totalCount brand_ids collection_ids
            oracle rest products2 used2 stream2

/-- `ProductGenerator.generate_products`:
`num_batches = (total_count + batch_size - 1) // batch_size`, run the batch
loop from an empty accumulator and a fresh `IDGenerator` state, then apply
the final cross-batch `deduplicate_product_names`, re-validate (a rename
never invalidates) and return `final_products[:total_count]`.
`batchSize ≥ 1` is assumed (Python would raise `ZeroDivisionError`). -/
def generate_products (maxRetries batchSize totalCount : ℕ)
    (brand_ids collection_ids : List String) (oracle : ℕ → ProductBatchOracle)
    (stream : List String) : RunResult (List Product) :=
  let numBatches := (totalCount + batchSize - 1) / batchSize
  match generateProductsLoop maxRetries batchSize totalCount brand_ids collection_ids
      oracle (List.range numBatches) [] [] stream with
  | RunResult.outOfFuel => RunResult.outOfFuel
  | RunResult.exn e => RunResult.exn e
  | RunResult.ok (products, _, _) =>
    match deduplicate_product_names products with
    | Except.error e => RunResult.exn e
    | Except.ok finalProducts => RunResult.ok (finalProducts.take totalCount)

/-! ## ReviewGenerator (`src/generators/review_gen.py`) -/

/-- A parsed JSON element of a review batch.  `rating` and `helpful_votes`
are pydantic-checked (`ge=1, le=5` and `ge=0`); `review_date` may be absent
(the code then fills a generated date); `wellFormed` abstracts the
remaining required-field checks. -/
structure ReviewData where
  id : Option String
  product_id : String
  rating : ℤ
  helpful_votes : ℤ
  review_date : Option String
  wellFormed : Bool
deriving Repr, DecidableEq

/-- A validated `Review` (`src/schema.py`), restricted to the fields the
orchestration engine reads. -/
structure Review where
  id : String
  product_id : String
  rating : ℤ
  helpful_votes : ℤ
  review_date : String
deriving Repr, DecidableEq

/-- `Review(**review_data)` under `except (ValueError, TypeError)`: the `id`
and `review_date` fields must be present, `1 <= rating <= 5`,
`helpful_votes >= 0`, and the abstracted remaining checks must pass. -/
def mkReview (d : ReviewData) : Option Review :=
  match d.id, d.review_date with
  | some i, some dt =>
    if d.wellFormed ∧ 1 ≤ d.rating ∧ d.rating ≤ 5 ∧ 0 ≤ d.helpful_votes then
      some { id := i, product_id := d.product_id, rating := d.rating,
             helpful_votes := d.helpful_votes, review_date := dt }
    else none
  | _, _ => none

/-- Line 143-144 of `_generate_batch_with_retry` (reviews): default a
missing `review_date` with `_generate_review_date()` (`dates i` models the
random date drawn for element `i`). -/
def fillDate (dates : ℕ → String) (i : ℕ) (d : ReviewData) : ReviewData :=
  match d.review_date with
  | none => { d with review_date := some (dates i) }
  | some _ => d

/-- The per-element adjustments of `_generate_batch_with_retry` (reviews,
lines 136-144): force the pre-allocated id by position (elements beyond
the pre-allocated id list keep their own id) and default a missing
`review_date`. -/
def reviewAdjust (dates : ℕ → String) : List String → ℕ → List ReviewData → List ReviewData
  | _, _, [] => []
  | [], i, d :: ds => fillDate dates i d :: reviewAdjust dates [] (i + 1) ds
  | e :: ids, i, d :: ds =>
    fillDate dates i { d with id := some e } :: reviewAdjust dates ids (i + 1) ds

/-- The element loop of `ReviewGenerator._generate_batch_with_retry` (lines
136-151): adjust each element, then validate it individually
(`Review(**review_data)` under `except (ValueError, TypeError)`), dropping
failures and keeping the rest. -/
def processReviewElements (ids : List String) (dates : ℕ → String)
    (ds : List ReviewData) : List Review :=
  (reviewAdjust dates ids 0 ds).filterMap mkReview

/-- `ReviewGenerator._generate_batch_with_retry`: up to `maxRetries`
attempts; a parse failure (`attempts k = none`) is retried; the first
successfully parsed payload is processed element-wise; if every attempt
fails the batch returns `[]` without raising. -/
def reviewBatchWithRetry (maxRetries : ℕ) (ids : List String) (dates : ℕ → String)
    (attempts : ℕ → Option (List ReviewData)) : List Review :=
  match firstParse attempts 0 maxRetries with
  | none => []
  | some ds => processReviewElements ids dates ds

/-- `_generate_product_reviews` batch split (lines 78-81):
`for i in range(0, count, batch_size): min(batch_size, count - i)`
(`batchSize ≥ 1` assumed; Python would raise `ValueError` on step 0). -/
def batchCounts (batchSize count : ℕ) : List ℕ :=
  (List.range ((count + batchSize - 1) / batchSize)).map fun j =>
    min batchSize (count - j * batchSize)

/-- Oracle for one review batch: parse outcome per retry attempt, and the
generated default dates per element position. -/
structure ReviewBatchOracle where
  attempts : ℕ → Option (List ReviewData)
  dates : ℕ → String

/-- The per-product batch loop of `_generate_product_reviews`: allocate
`batch_count` review ids from the generator-instance `IDGenerator` (used-set
and uuid stream threaded through the whole run) and run the retry batch. -/
def productReviewsLoop (maxRetries : ℕ) (oracle : ℕ → ReviewBatchOracle) :
    List (ℕ × ℕ) → List String → List String →
    Option (List Review × List String × List String)
  | [], used, stream => some ([], used, stream)
  | (bj, cnt) :: rest, used, stream =>
    match generateIds "review" cnt used stream with
    | none => none
    | some (ids, used2, stream2) =>
      let revs := reviewBatchWithRetry maxRetries ids (oracle bj).dates (oracle bj).attempts
      match productReviewsLoop maxRetries oracle rest used2 stream2 with
      | none => none
      | some (more, used3, stream3) => some (revs ++ more, used3, stream3)

/-- The product loop of `ReviewGenerator.generate_reviews`: one sub-batch
group per product, in product order.  The product itself only parameterises
the prompt (`product.id` is passed as the `product_id` prompt parameter);
the payload's `product_id` fields come from the capability. -/
def generateReviewsLoop (maxRetries batchSize rpp : ℕ)
    (oracle : ℕ → ℕ → ReviewBatchOracle) :
    List (ℕ × Product) → List String → List String →
    Option (List Review × List String × List String)
  | [], used, stream => some ([], used, stream)
  | (pi, _p) :: rest, used, stream =>
    match productReviewsLoop maxRetries (oracle pi) (batchCounts batchSize rpp).enum
        used stream with
    | none => none
    | some (revs, used2, stream2) =>
      match generateReviewsLoop maxRetries batchSize rpp oracle rest used2 stream2 with
      | none => none
      | some (more, used3, stream3) => some (revs ++ more, used3, stream3)

/-- `ReviewGenerator.generate_reviews` over the run's product list. -/
def generate_reviews (maxRetries batchSize : ℕ) (products : List Product)
    (rpp : ℕ) (oracle : ℕ → ℕ → ReviewBatchOracle) (stream : List String) :
    Option (List Review) :=
  (generateReviewsLoop maxRetries batchSize rpp oracle products.enum [] stream).map
    (fun r => r.1)

/-! ## CollectionGenerator (`src/generators/collection_gen.py`) -/

/-- A parsed JSON payload for one collection attempt.  `wellFormed`
abstracts the pydantic checks on the fields the orchestrator never
inspects. -/
structure CollectionData where
  id : Option String
  name : String
  brand_id : String
  wellFormed : Bool
deriving Repr, DecidableEq

/-- A validated `Collection` (`src/schema.py`), restricted to the fields
the orchestration engine reads. -/
structure Collection where
  id : String
  name : String
  brand_id : String
deriving Repr, DecidableEq

/-- The attempt loop for one collection (lines 55-103 of
`generate_collections`), with `max_attempts = 3`: when `brand_ids` is empty
the code warns and breaks, skipping this collection; a parse failure or a
blank `name` retries; the pre-generated `collection_id` is forced onto the
payload; a `Collection(**data)` validation failure is caught and retried.
The payload's own `brand_id` is kept (only `id` is forced). -/
def collectionAttemptLoop (brand_ids : List String) (cid : String)
    (attempts : ℕ → Option CollectionData) : ℕ → ℕ → Option Collection
  | _, 0 => none
  | k, fuel + 1 =>
    if brand_ids = [] then none
    else
      match attempts k with
      | none => collectionAttemptLoop brand_ids cid attempts (k + 1) fuel
      | some d =>
        if pyStrip d.name = "" then collectionAttemptLoop brand_ids cid attempts (k + 1) fuel
        else if d.wellFormed then some { id := cid, name := d.name, brand_id := d.brand_id }
        else collectionAttemptLoop brand_ids cid attempts (k + 1) fuel

/-- `CollectionGenerator.generate_collections`: pre-generate `count`
collection ids from a fresh `IDGenerator`, then run the per-collection
attempt loop; skipped collections contribute nothing. -/
def generate_collections (count : ℕ) (brand_ids : List String)
    (oracle : ℕ → ℕ → Option CollectionData) (stream : List String) :
    Option (List Collection) :=
  match generateIds "collection" count [] stream with
  | none => none
  | some (cids, _, _) =>
    some (cids.enum.filterMap fun ic =>
      collectionAttemptLoop brand_ids ic.2 (oracle ic.1) 0 3)

/-! ## CatalogPipeline.run and the `get_brand_context` call (`src/pipeline.py`,
`src/utils/brand_context.py`) -/

/-- Formal parameter names of `get_brand_context`
(`src/utils/brand_context.py` line 66):
`def get_brand_context(max_tokens: Optional[int] = 300) -> str`. -/
def getBrandContextParams : List String := ["max_tokens"]

/-- Keyword arguments of the `get_brand_context` call in
`CatalogPipeline.run` (`src/pipeline.py` line 86):
`get_brand_context(brand_guide_filename=self.brand_guide_filename)`. -/
def pipelineBrandContextKwargs : List String := ["brand_guide_filename"]

/-- Python call binding for keyword arguments: a callee without `**kwargs`
accepts a call only if every keyword argument names one of its formal
parameters; otherwise the call raises `TypeError`. -/
def kwargsAccepted (params kwargs : List String) : Bool :=
  kwargs.all fun k => decide (k ∈ params)

/-- Step 1 of `CatalogPipeline.run` ("Load brand context", line 86): the
`get_brand_context(...)` call either binds and returns the context, or
raises `TypeError` on an unexpected keyword argument — before the brand,
collection, product and review stages. -/
def pipelineRunStart : Except PyErr Unit :=
  if kwargsAccepted getBrandContextParams pipelineBrandContextKwargs then Except.ok ()
  else Except.error PyErr.typeError

/-! ## Helper lemmas -/

theorem ceil_ratCast_div_100 (t : ℕ) : ⌈(t : ℚ) / 100⌉₊ = (t + 99) / 100 := by
  apply le_antisymm
  · rw [Nat.ceil_le, div_le_iff₀ (by norm_num)]
    have h1 : t ≤ (t + 99) / 100 * 100 := by omega
    calc (t : ℚ) ≤ (((t + 99) / 100 * 100 : ℕ) : ℚ) := by exact_mod_cast h1
      _ = (((t + 99) / 100 : ℕ) : ℚ) * 100 := by push_cast; ring
  · rcases Nat.eq_zero_or_pos ((t + 99) / 100) with h0 | hpos
    · simp [h0]
    · have h2 : ((t + 99) / 100 - 1) * 100 < t := by omega
      have h3 : (((t + 99) / 100 - 1 : ℕ) : ℚ) < (t : ℚ) / 100 := by
        rw [lt_div_iff₀ (by norm_num)]
        exact_mod_cast h2
      have h4 : (t + 99) / 100 - 1 < ⌈(t : ℚ) / 100⌉₊ := Nat.lt_ceil.mpr h3
      omega

theorem floor_10000_div (t : ℕ) : ⌊(10000 : ℚ) / (t : ℚ)⌋₊ = 10000 / t := by
  rw [Nat.floor_div_nat, Nat.floor_ofNat]

theorem drawFresh_spec {pfx : String} {used stream : List String} {i : String}
    {rest : List String} (h : drawFresh pfx used stream = some (i, rest)) :
    i ∉ used ∧ (∃ s ∈ stream, i = pfx ++ "_" ++ s) ∧ rest ⊆ stream := by
  induction stream with
  | nil => simp [drawFresh] at h
  | cons s ss ih =>
    simp only [drawFresh] at h
    split at h
    · obtain ⟨h1, ⟨s2, hs2, he⟩, hsub⟩ := ih h
      exact ⟨h1, ⟨s2, List.mem_cons_of_mem _ hs2, he⟩,
        fun x hx => List.mem_cons_of_mem _ (hsub hx)⟩
    · rw [Option.some.injEq, Prod.mk.injEq] at h
      obtain ⟨rfl, rfl⟩ := h
      exact ⟨by assumption, ⟨s, List.mem_cons_self _ _, rfl⟩,
        fun x hx => List.mem_cons_of_mem _ hx⟩

theorem generateIds_props (pfx : String) :
    ∀ (count : ℕ) (used stream ids used2 rest : List String),
    generateIds pfx count used stream = some (ids, used2, rest) →
    ids.length = count ∧ ids.Nodup ∧ (∀ i ∈ ids, i ∉ used) ∧
    (∀ i ∈ ids, ∃ s ∈ stream, i = pfx ++ "_" ++ s) ∧
    (∀ x, x ∈ used2 ↔ x ∈ ids ∨ x ∈ used) := by
  intro count
  induction count with
  | zero =>
    intro used stream ids used2 rest h
    simp only [generateIds, Option.some.injEq, Prod.mk.injEq] at h
    obtain ⟨rfl, rfl, rfl⟩ := h
    simp
  | succ n ih =>
    intro used stream ids used2 rest h
    simp only [generateIds] at h
    cases hd : drawFresh pfx used stream with
    | none => rw [hd] at h; simp at h
    | some ir =>
      obtain ⟨i0, rest0⟩ := ir
      rw [hd] at h
      dsimp only at h
      cases hg : generateIds pfx n (i0 :: used) rest0 with
      | none => rw [hg] at h; simp at h
      | some t =>
        obtain ⟨ids1, used1, rest1⟩ := t
        rw [hg] at h
        dsimp only at h
        simp only [Option.some.injEq, Prod.mk.injEq] at h
        obtain ⟨rfl, rfl, rfl⟩ := h
        obtain ⟨hni, ⟨s0, hs0, he0⟩, hsub⟩ := drawFresh_spec hd
        obtain ⟨hlen, hnd, hfresh, hstream, hused⟩ := ih (i0 :: used) rest0 ids1 used1 rest1 hg
        refine ⟨by simp [hlen], ?_, ?_, ?_, ?_⟩
        · refine List.nodup_cons.mpr ⟨fun hmem => ?_, hnd⟩
          exact (hfresh i0 hmem) (List.mem_cons_self _ _)
        · intro i hi
          rcases List.mem_cons.mp hi with rfl | hi1
          · exact hni
          · exact fun hmem => (hfresh i hi1) (List.mem_cons_of_mem _ hmem)
        · intro i hi
          rcases List.mem_cons.mp hi with rfl | hi1
          · exact ⟨s0, hs0, he0⟩
          · obtain ⟨s2, hs2, he2⟩ := hstream i hi1
            exact ⟨s2, hsub hs2, he2⟩
        · intro x
          rw [hused x]
          simp only [List.mem_cons]
          tauto

/-! ## Claim theorems -/

/-- **C4.** For one allocator instance and one entity type, every call
`allocate(count)` (`IDGenerator.generate_*_ids`) returns an ordered
sequence of exactly `count` identifiers of the form
`<type-prefix>_<random-suffix>` that are pairwise distinct and distinct
from every identifier returned by any earlier call on the same instance
(the threaded used-set persists), where a suffix colliding with the
used-set is redrawn until unique (the success hypothesis `h` states that
the random source eventually yields enough unused suffixes). -/
theorem generateIds_contract (pfx : String) (count : ℕ)
    (used stream ids used2 rest : List String)
    (h : generateIds pfx count used stream = some (ids, used2, rest)) :
    ids.length = count ∧ ids.Nodup ∧ (∀ i ∈ ids, i ∉ used) ∧
    (∀ i ∈ ids, ∃ s ∈ stream, i = pfx ++ "_" ++ s) ∧
    (∀ (count2 : ℕ) (stream2 ids2 used3 rest2 : List String),
      generateIds pfx count2 used2 stream2 = some (ids2, used3, rest2) →
      ∀ i ∈ ids2, i ∉ ids ∧ i ∉ used) := by
  obtain ⟨h1, h2, h3, h4, h5⟩ := generateIds_props pfx count used stream ids used2 rest h
  refine ⟨h1, h2, h3, h4, ?_⟩
  intro count2 stream2 ids2 used3 rest2 hg i hi
  obtain ⟨_, _, hfresh, _, _⟩ := generateIds_props pfx count2 used2 stream2 ids2 used3 rest2 hg
  have hni := hfresh i hi
  exact ⟨fun hmem => hni ((h5 i).mpr (Or.inl hmem)),
         fun hmem => hni ((h5 i).mpr (Or.inr hmem))⟩

/-- Witness for **C4**: a concrete allocation of two product ids against a
used-set already holding `product_aa`; the first draw collides and is
redrawn. -/
theorem generateIds_contract_witness :
    (["product_bb", "product_cc"] : List String).length = 2 ∧
    (["product_bb", "product_cc"] : List String).Nodup :=
  ⟨(generateIds_contract "product" 2 ["product_aa"] ["aa", "bb", "cc"]
      ["product_bb", "product_cc"] ["product_cc", "product_bb", "product_aa"] [] rfl).1,
   (generateIds_contract "product" 2 ["product_aa"] ["aa", "bb", "cc"]
      ["product_bb", "product_cc"] ["product_cc", "product_bb", "product_aa"] [] rfl).2.1⟩

/-- **C3.** The proportional planner at the top of `CatalogPipeline.run` is
a deterministic pure function of the single input `totalProducts ≥ 1`,
computing `brandCount = max(2, ceil(totalProducts/100))`,
`collectionCount = max(brandCount*2, ceil(totalProducts/100))`,
`reviewsPerProduct = max(2, min(5, floor(10000/totalProducts)))` and
`totalReviews = totalProducts * reviewsPerProduct`; in particular
`plan 100 = {2, 4, 5, 500}` and `plan 10000 = {100, 200, 2, 20000}`. -/
theorem plan_correct (t : ℕ) (_ht : 1 ≤ t) :
    plan t = { brandCount := max 2 ⌈(t : ℚ) / 100⌉₊,
               collectionCount := max (max 2 ⌈(t : ℚ) / 100⌉₊ * 2) ⌈(t : ℚ) / 100⌉₊,
               reviewsPerProduct := max 2 (min 5 ⌊(10000 : ℚ) / (t : ℚ)⌋₊),
               totalReviews := t * max 2 (min 5 ⌊(10000 : ℚ) / (t : ℚ)⌋₊) } ∧
    plan 100 = { brandCount := 2, collectionCount := 4, reviewsPerProduct := 5,
                 totalReviews := 500 } ∧
    plan 10000 = { brandCount := 100, collectionCount := 200, reviewsPerProduct := 2,
                   totalReviews := 20000 } := by
  refine ⟨?_, by decide, by decide⟩
  simp only [plan, ceil_ratCast_div_100, floor_10000_div]

/-- Witness for **C3**: `plan_correct` applied at `totalProducts = 100`. -/
theorem plan_correct_witness :
    plan 100 = { brandCount := 2, collectionCount := 4, reviewsPerProduct := 5,
                 totalReviews := 500 } :=
  (plan_correct 100 (by norm_num)).2.1

/-- **C9.** Contrary to the claim, a run can never complete: step 1 of
`CatalogPipeline.run` calls
`get_brand_context(brand_guide_filename=self.brand_guide_filename)`
(`src/pipeline.py` line 86) while `get_brand_context` accepts only
`max_tokens` (`src/utils/brand_context.py` line 66), so every invocation
raises `TypeError` — an error other than `ConfigurationError` — before the
brand, collection, product and review stages, even with credentials and
the context document present. -/
theorem pipelineRunStart_typeError :
    pipelineRunStart = Except.error PyErr.typeError ∧
    kwargsAccepted getBrandContextParams pipelineBrandContextKwargs = false :=
  ⟨rfl, rfl⟩

/-- Concrete parsed product element: empty category/gender/colors,
well-formed, with the given id, name and reference fields. -/
def mkPD (i : Option String) (nm b c : String) : ProductData :=
  { id := i, name := nm, category := "", gender := "", colors := [],
    brand_id := b, collection_id := c, wellFormed := true }

/-- Concrete validated product with empty category/gender/colors. -/
def mkP (i nm b c : String) : Product :=
  { id := i, name := nm, category := "", gender := "", colors := [],
    brand_id := b, collection_id := c }

/-- C1 failing input, batch 0: the capability returns six elements though
only five ids were pre-allocated; the sixth carries its own id
`product_a1`, equal to the first pre-allocated id. -/
def c1Batch0 : List ProductData :=
  [mkPD none "N1" "b1" "c1", mkPD none "N2" "b1" "c1", mkPD none "N3" "b1" "c1",
   mkPD none "N4" "b1" "c1", mkPD none "N5" "b1" "c1",
   mkPD (some "product_a1") "N6" "b1" "c1"]

/-- C1 failing input, batch 1: four elements for the four remaining slots. -/
def c1Batch1 : List ProductData :=
  [mkPD none "N7" "b1" "c1", mkPD none "N8" "b1" "c1", mkPD none "N9" "b1" "c1",
   mkPD none "N10" "b1" "c1"]

/-- C1 oracle: every batch parses on the first attempt. -/
def c1Oracle : ℕ → ProductBatchOracle := fun bi =>
  { brandPick := 0, collectionPick := 0,
    attempts := fun k => if k = 0 then some (if bi = 0 then c1Batch0 else c1Batch1) else none }

/-- C1 uuid-suffix stream. -/
def c1Stream : List String := ["a1", "a2", "a3", "a4", "a5", "b1", "b2", "b3", "b4"]

/-- C1 run output: ten products, with `product_a1` appearing twice. -/
def c1Output : List Product :=
  [mkP "product_a1" "N1" "b1" "c1", mkP "product_a2" "N2" "b1" "c1",
   mkP "product_a3" "N3" "b1" "c1", mkP "product_a4" "N4" "b1" "c1",
   mkP "product_a5" "N5" "b1" "c1", mkP "product_a1" "N6" "b1" "c1",
   mkP "product_b1" "N7" "b1" "c1", mkP "product_b2" "N8" "b1" "c1",
   mkP "product_b3" "N9" "b1" "c1", mkP "product_b4" "N10" "b1" "c1"]

/-- **C1.** Evaluation at the failing input: a run of
`generate_products(total_count=10, batch_size=5)` whose first batch
response has one element more than the five pre-allocated ids, that extra
element reusing `product_a1`.  The run keeps it (ids are only forced for
positions `i < len(product_ids)`), so the final output's product ids are
not pairwise distinct — refuting the claimed uniqueness under
"returns more elements than identifiers were pre-allocated". -/
theorem generate_products_duplicate_ids :
    generate_products 3 5 10 ["brand_x"] ["col_x"] c1Oracle c1Stream = RunResult.ok c1Output ∧
    ¬ (c1Output.map Product.id).Nodup :=
  ⟨rfl, by decide⟩

/-- C2 failing input for the final deduplication pass: 21 products whose
names pre-register every rename candidate for the base name `"X"` (all
with empty category/gender and empty `colors`, so the color token is
`''`), one product literally named `"X (Style 23)"`, and a duplicate
`"X"`. -/
def c2Input : List Product :=
  [mkP "p01" "X" "b" "c", mkP "p02" "Classic X" "b" "c", mkP "p03" "Modern X" "b" "c",
   mkP "p04" "Premium X" "b" "c", mkP "p05" "Essential X" "b" "c",
   mkP "p06" "Signature X" "b" "c", mkP "p07" "Heritage X" "b" "c",
   mkP "p08" "Contemporary X" "b" "c", mkP "p09" "Refined X" "b" "c",
   mkP "p10" "Elegant X" "b" "c", mkP "p11" "Casual X" "b" "c",
   mkP "p12" "Relaxed" "b" "c", mkP "p13" "Slim" "b" "c", mkP "p14" "Tailored" "b" "c",
   mkP "p15" "Oversized" "b" "c", mkP "p16" "Fitted" "b" "c",
   mkP "p17" "Comfortable" "b" "c", mkP "p18" "Structured" "b" "c",
   mkP "p19" "Flexible" "b" "c", mkP "p20" "Adaptive" "b" "c",
   mkP "p21" "Classic" "b" "c", mkP "p22" "X (Style 23)" "b" "c",
   mkP "p23" "X" "b" "c"]

/-- C2 output: the duplicate `"X"` exhausts all rename strategies and
falls back to `"X (Style 23)"` — which is already a registered name. -/
def c2Output : List Product := c2Input.dropLast ++ [mkP "p23" "X (Style 23)" "b" "c"]

/-- **C2.** Evaluation at the failing input: after the final
`deduplicate_product_names` pass the output still contains two products
whose names are equal after lowercasing and trimming (`"X (Style 23)"`
twice), because the fallback suffix name can collide with an
already-registered literal name. -/
theorem final_dedup_duplicate_names :
    deduplicate_product_names c2Input = Except.ok c2Output ∧
    ¬ ((c2Output.map fun p => norm p.name).Nodup) :=
  ⟨rfl, by decide⟩

/-- C5 failing input: the C2 input followed by a second duplicate `"X"`. -/
def c5Input : List Product := c2Input ++ [mkP "p24" "X" "b" "c"]

/-- C5 output: both fallback renames produce the same name
`"X (Style 23)"` (registering an already-present name does not grow the
used-name set, so `N` does not increase), which moreover equals the
registered literal name of `p22`. -/
def c5Output : List Product := c2Output ++ [mkP "p24" "X (Style 23)" "b" "c"]

/-- **C5.** Evaluation at the failing input: two successive fallback
renames of the same base name produce the identical name
`"X (Style 23)"`, also equal to an already-registered name — the output
carries that name three times — refuting both the claimed pairwise
distinctness of fallback names and the claimed strict increase of `N`. -/
theorem fallback_name_collision :
    deduplicate_product_names c5Input = Except.ok c5Output ∧
    (c5Output.map Product.name).count "X (Style 23)" = 3 :=
  ⟨rfl, by decide⟩

/-- C6 failing input: a one-batch run whose parsed element carries its own
`brand_id = "bogus_brand"`; the code forces only the `id` field. -/
def c6Oracle : ℕ → ProductBatchOracle := fun _ =>
  { brandPick := 0, collectionPick := 0,
    attempts := fun k =>
      if k = 0 then some [mkPD none "P" "bogus_brand" "col_a"] else none }

/-- C6 output product: kept with the dangling brand reference. -/
def c6Prod : Product := mkP "product_s1" "P" "bogus_brand" "col_a"

/-- **C6 counterexample.** A kept product whose `brand_id` was filled in
by the generation capability does not resolve to the run's brand output
`["brand_a"]`: reference fields are never overwritten or validated. -/
theorem product_reference_not_resolved :
    generate_products 3 1 1 ["brand_a"] ["col_a"] c6Oracle ["s1"] = RunResult.ok [c6Prod] ∧
    c6Prod.brand_id ∉ ["brand_a"] :=
  ⟨rfl, by decide⟩

/-- C8 failing input: a product run with zero brand ids and zero
collection ids whose single batch parses to one valid element. -/
def c8Oracle : ℕ → ProductBatchOracle := fun _ =>
  { brandPick := 0, collectionPick := 0,
    attempts := fun k => if k = 0 then some [mkPD none "Q" "bq" "cq"] else none }

/-- **C8 counterexample.** With zero parent identifiers the product batch
is not skipped: it selects the synthetic placeholder references
`"default_brand"` / `"default_collection"` for the prompt and still
contributes an entity to the run's output. -/
theorem empty_parent_batch_not_skipped :
    generate_products 3 1 1 [] [] c8Oracle ["s1"] = RunResult.ok [mkP "product_s1" "Q" "bq" "cq"] ∧
    selectBrandRef [] 0 = "default_brand" ∧
    selectCollectionRef [] 0 = "default_collection" ∧
    ([mkP "product_s1" "Q" "bq" "cq"] : List Product) ≠ [] :=
  ⟨rfl, rfl, rfl, by decide⟩

/-- **C10.** Every successful `generate_products` run returns at most
`total_count` products: even when accumulated batches overshoot (the
capability may return extra elements), the final deduplicated list is
truncated by `final_products[:total_count]`. -/
theorem generate_products_at_most_total (maxRetries batchSize totalCount : ℕ)
    (brand_ids collection_ids : List String) (oracle : ℕ → ProductBatchOracle)
    (stream : List String) (out : List Product)
    (h : generate_products maxRetries batchSize totalCount brand_ids collection_ids
          oracle stream = RunResult.ok out) :
    out.length ≤ totalCount := by
  simp only [generate_products] at h
  cases hl : generateProductsLoop maxRetries batchSize totalCount brand_ids collection_ids
      oracle (List.range ((totalCount + batchSize - 1) / batchSize)) [] [] stream with
  | ok t =>
    obtain ⟨products, used2, stream2⟩ := t
    rw [hl] at h
    dsimp only at h
    cases hdp : deduplicate_product_names products with
    | error e => rw [hdp] at h; simp at h
    | ok fin =>
      rw [hdp] at h
      dsimp only at h
      rw [RunResult.ok.injEq] at h
      subst h
      exact List.length_take_le totalCount fin
  | exn e => rw [hl] at h; simp at h
  | outOfFuel => rw [hl] at h; simp at h

/-- C10 witness oracle: every parse attempt fails. -/
def c10Oracle : ℕ → ProductBatchOracle := fun _ =>
  { brandPick := 0, collectionPick := 0, attempts := fun _ => none }

/-- Witness for **C10**: `generate_products_at_most_total` at a concrete
one-batch run whose attempts all fail to parse, yielding the empty output. -/
theorem generate_products_at_most_total_witness :
    ([] : List Product).length ≤ 1 :=
  generate_products_at_most_total 3 1 1 ["b"] ["c"] c10Oracle ["s1"] [] rfl

theorem firstParse_none {α : Type} (attempts : ℕ → Option α) :
    ∀ (fuel k : ℕ), (∀ j, k ≤ j → j < k + fuel → attempts j = none) →
    firstParse attempts k fuel = none := by
  intro fuel
  induction fuel with
  | zero => intro k _; rfl
  | succ n ih =>
    intro k h
    have hk : attempts k = none := h k le_rfl (by omega)
    simp only [firstParse, hk]
    exact ih (k + 1) (fun j hj1 hj2 => h j (by omega) (by omega))

theorem firstParse_firstSuccess {α : Type} (attempts : ℕ → Option α) :
    ∀ (fuel k m : ℕ) (ds : α), k ≤ m → m < k + fuel → attempts m = some ds →
    (∀ j, k ≤ j → j < m → attempts j = none) →
    firstParse attempts k fuel = some ds := by
  intro fuel
  induction fuel with
  | zero => intro k m ds h1 h2 _ _; omega
  | succ n ih =>
    intro k m ds h1 h2 h3 h4
    by_cases hkm : k = m
    · subst hkm
      simp only [firstParse, h3]
    · have hk : attempts k = none := h4 k le_rfl (by omega)
      simp only [firstParse, hk]
      exact ih (k + 1) m ds (by omega) (by omega) h3 (fun j hj1 hj2 => h4 j (by omega) hj2)

/-- Field-wise correspondence used to state that the deduplication pass
keeps an element, changing at most its `name`. -/
def keptExceptName (q p : Product) : Prop :=
  q.id = p.id ∧ q.category = p.category ∧ q.gender = p.gender ∧
  q.colors = p.colors ∧ q.brand_id = p.brand_id ∧ q.collection_id = p.collection_id

theorem dedupGo_keeps : ∀ (ps : List Product) (used : List String) (out : List Product),
    dedupProductsGo used ps = Except.ok out →
    List.Forall₂ keptExceptName out ps := by
  intro ps
  induction ps with
  | nil =>
    intro used out h
    simp only [dedupProductsGo, Except.ok.injEq] at h
    subst h
    exact List.Forall₂.nil
  | cons p rest ih =>
    intro used out h
    simp only [dedupProductsGo] at h
    split at h
    · cases hr : dedupProductsGo (addName used p.name) rest with
      | error e => rw [hr] at h; simp [Except.map] at h
      | ok out1 =>
        rw [hr] at h
        simp only [Except.map, Except.ok.injEq] at h
        subst h
        exact List.Forall₂.cons ⟨rfl, rfl, rfl, rfl, rfl, rfl⟩ (ih _ _ hr)
    · cases hc : colorOf p.colors with
      | error e => rw [hc] at h; simp at h
      | ok color =>
        rw [hc] at h
        dsimp only at h
        cases hs : get_name_suggestions used p.name p.category p.gender color with
        | cons nn tl =>
          rw [hs] at h
          dsimp only at h
          cases hr : dedupProductsGo (addName used nn) rest with
          | error e => rw [hr] at h; simp [Except.map] at h
          | ok out1 =>
            rw [hr] at h
            simp only [Except.map, Except.ok.injEq] at h
            subst h
            exact List.Forall₂.cons ⟨rfl, rfl, rfl, rfl, rfl, rfl⟩ (ih _ _ hr)
        | nil =>
          rw [hs] at h
          dsimp only at h
          cases hr : dedupProductsGo
              (addName used (p.name ++ " (Style " ++ toString (used.length + 1) ++ ")")) rest with
          | error e => rw [hr] at h; simp [Except.map] at h
          | ok out1 =>
            rw [hr] at h
            simp only [Except.map, Except.ok.injEq] at h
            subst h
            exact List.Forall₂.cons ⟨rfl, rfl, rfl, rfl, rfl, rfl⟩ (ih _ _ hr)

/-- C7 failing input: a product payload whose parse succeeds; element 1 is
valid, element 2 fails schema validation, element 3 is valid but repeats
element 1's name and carries a non-empty `colors` list. -/
def c7xPayload : List ProductData :=
  [{ id := none, name := "Dup", category := "", gender := "", colors := ["Blue"],
     brand_id := "b", collection_id := "c", wellFormed := true },
   { id := none, name := "Other", category := "", gender := "", colors := [],
     brand_id := "b", collection_id := "c", wellFormed := false },
   { id := none, name := "Dup", category := "", gender := "", colors := ["Red"],
     brand_id := "b", collection_id := "c", wellFormed := true }]

/-- C7 failing attempts: the first attempt parses. -/
def c7xAttempts : ℕ → Option (List ProductData) := fun k =>
  if k = 0 then some c7xPayload else none

/-- **C7 counterexample.** A successfully parsed product batch does not
keep its valid elements individually: the intra-batch
`deduplicate_product_names` call hits the duplicate name `"Dup"`, whose
element has a non-empty `colors` list, and the color extraction
(a `.split` on a `list` value) raises `AttributeError`, which the retry
clause `except (json.JSONDecodeError, ValueError)` does not catch — the
whole batch, valid siblings included, is lost and the exception escapes
the orchestrator. -/
theorem product_batch_dedup_raises :
    batchWithRetry 3 ["product_x1", "product_x2", "product_x3"] c7xAttempts =
      Except.error PyErr.attributeError := rfl

/-- **C7 (amended).** Batch retry behaviour: if every one of the
`maxRetries` attempts fails to parse, the batch contributes exactly zero
entities without raising (both the review and the product variants return
an ordinary empty result).  On the first successful parse, a review batch
processes its payload element-wise — every element whose adjusted form
passes schema validation is kept, every kept entity comes from some
element, and failing elements are dropped individually without failing
the batch.  A product batch validates elements individually the same way
but then runs the intra-batch `deduplicate_product_names` over the
survivors: whenever that pass completes without raising, every survivor
is kept, unchanged except possibly its `name`; when it raises, the
exception escapes (see `product_batch_dedup_raises`). -/
theorem batch_retry_amended (maxRetries : ℕ) (ids : List String) (dates : ℕ → String)
    (attempts : ℕ → Option (List ReviewData))
    (pattempts : ℕ → Option (List ProductData)) (m : ℕ)
    (ds : List ReviewData) (pds : List ProductData) :
    ((∀ j, j < maxRetries → attempts j = none) →
      reviewBatchWithRetry maxRetries ids dates attempts = []) ∧
    ((∀ j, j < maxRetries → pattempts j = none) →
      batchWithRetry maxRetries ids pattempts = Except.ok []) ∧
    (m < maxRetries → attempts m = some ds → (∀ j, j < m → attempts j = none) →
      reviewBatchWithRetry maxRetries ids dates attempts =
        processReviewElements ids dates ds ∧
      (∀ d ∈ reviewAdjust dates ids 0 ds, ∀ r, mkReview d = some r →
        r ∈ processReviewElements ids dates ds) ∧
      (∀ r ∈ processReviewElements ids dates ds,
        ∃ d ∈ reviewAdjust dates ids 0 ds, mkReview d = some r)) ∧
    (m < maxRetries → pattempts m = some pds → (∀ j, j < m → pattempts j = none) →
      batchWithRetry maxRetries ids pattempts =
        deduplicate_product_names ((forceIds ids pds).filterMap mkProduct) ∧
      ∀ out, deduplicate_product_names ((forceIds ids pds).filterMap mkProduct) =
          Except.ok out →
        List.Forall₂ keptExceptName out ((forceIds ids pds).filterMap mkProduct)) := by
  refine ⟨?_, ?_, ?_, ?_⟩
  · intro h
    have hn : firstParse attempts 0 maxRetries = none :=
      firstParse_none attempts maxRetries 0 (fun j _ hj2 => h j (by omega))
    simp only [reviewBatchWithRetry, hn]
  · intro h
    have hn : firstParse pattempts 0 maxRetries = none :=
      firstParse_none pattempts maxRetries 0 (fun j _ hj2 => h j (by omega))
    simp only [batchWithRetry, hn]
  · intro hm hsome hbefore
    have hf : firstParse attempts 0 maxRetries = some ds :=
      firstParse_firstSuccess attempts maxRetries 0 m ds (by omega) (by omega) hsome
        (fun j _ hj2 => hbefore j hj2)
    refine ⟨by simp only [reviewBatchWithRetry, hf], ?_, ?_⟩
    · intro d hd r hr
      exact List.mem_filterMap.mpr ⟨d, hd, hr⟩
    · intro r hr
      exact List.mem_filterMap.mp hr
  · intro hm hsome hbefore
    have hf : firstParse pattempts 0 maxRetries = some pds :=
      firstParse_firstSuccess pattempts maxRetries 0 m pds (by omega) (by omega) hsome
        (fun j _ hj2 => hbefore j hj2)
    refine ⟨by simp only [batchWithRetry, hf], ?_⟩
    intro out hout
    simp only [deduplicate_product_names] at hout
    exact dedupGo_keeps _ _ _ hout

/-- C7 witness payload (reviews): one valid element and one invalid
element (rating 9 fails the pydantic `le=5` bound). -/
def c7Payload : List ReviewData :=
  [{ id := none, product_id := "product_p", rating := 4, helpful_votes := 2,
     review_date := none, wellFormed := true },
   { id := none, product_id := "product_p", rating := 9, helpful_votes := 0,
     review_date := some "2024-01-02", wellFormed := true }]

/-- C7 witness attempts (reviews): attempt 0 fails to parse, attempt 1
parses. -/
def c7Attempts : ℕ → Option (List ReviewData) := fun k =>
  if k = 1 then some c7Payload else none

/-- C7 witness payload (products): one valid element and one invalid
element, with distinct names so the deduplication pass completes. -/
def c7pPayload : List ProductData :=
  [mkPD none "A" "b" "c",
   { id := none, name := "B", category := "", gender := "", colors := [],
     brand_id := "b", collection_id := "c", wellFormed := false }]

/-- C7 witness attempts (products): the first attempt parses. -/
def c7pAttempts : ℕ → Option (List ProductData) := fun k =>
  if k = 0 then some c7pPayload else none

/-- Witness for **C7 (amended)**: `batch_retry_amended` applied at a
concrete review batch (first attempt fails to parse, the second parses to
one valid and one invalid element; only the valid one survives) and at a
concrete product batch (one valid, one invalid element, no name
collision). -/
theorem batch_retry_amended_witness :
    (reviewBatchWithRetry 3 ["review_r1", "review_r2"] (fun _ => "2024-05-05") c7Attempts =
      processReviewElements ["review_r1", "review_r2"] (fun _ => "2024-05-05") c7Payload) ∧
    (batchWithRetry 3 ["product_x1", "product_x2"] c7pAttempts =
      deduplicate_product_names
        ((forceIds ["product_x1", "product_x2"] c7pPayload).filterMap mkProduct)) ∧
    processReviewElements ["review_r1", "review_r2"] (fun _ => "2024-05-05") c7Payload =
      [{ id := "review_r1", product_id := "product_p", rating := 4, helpful_votes := 2,
         review_date := "2024-05-05" }] := by
  refine ⟨?_, ?_, rfl⟩
  · exact ((batch_retry_amended 3 ["review_r1", "review_r2"] (fun _ => "2024-05-05")
      c7Attempts (fun _ => none) 1 c7Payload []).2.2.1 (by omega)
      (by simp [c7Attempts])
      (fun j hj => by
        have hj0 : j = 0 := by omega
        subst hj0
        simp [c7Attempts])).1
  · exact ((batch_retry_amended 3 ["product_x1", "product_x2"] (fun _ => "2024-05-05")
      (fun _ => none) c7pAttempts 0 [] c7pPayload).2.2.2 (by omega)
      (by simp [c7pAttempts])
      (fun j hj => absurd hj (by omega))).1

theorem mkProduct_refs (d : ProductData) (p : Product) (h : mkProduct d = some p) :
    p.brand_id = d.brand_id ∧ p.collection_id = d.collection_id := by
  obtain ⟨oid, nm, cat, gen, cols, bid, cid, wf⟩ := d
  cases oid with
  | none => simp [mkProduct] at h
  | some i =>
    simp only [mkProduct] at h
    split at h
    · rw [Option.some.injEq] at h; subst h; exact ⟨rfl, rfl⟩
    · simp at h

theorem forceIds_mem : ∀ (ids : List String) (ds : List ProductData) (d2 : ProductData),
    d2 ∈ forceIds ids ds →
    ∃ d ∈ ds, d2.brand_id = d.brand_id ∧ d2.collection_id = d.collection_id := by
  intro ids ds
  induction ds generalizing ids with
  | nil => intro d2 h; cases ids <;> simp [forceIds] at h
  | cons d rest ih =>
    intro d2 h
    cases ids with
    | nil =>
      rw [forceIds] at h
      rcases List.mem_cons.mp h with heq | h1
      · exact ⟨d, List.mem_cons_self _ _, by rw [heq], by rw [heq]⟩
      · obtain ⟨d0, hd0, he⟩ := ih [] d2 h1
        exact ⟨d0, List.mem_cons_of_mem _ hd0, he⟩
    | cons e ids0 =>
      rw [forceIds] at h
      rcases List.mem_cons.mp h with heq | h1
      · exact ⟨d, List.mem_cons_self _ _, by rw [heq], by rw [heq]⟩
      · obtain ⟨d0, hd0, he⟩ := ih ids0 d2 h1
        exact ⟨d0, List.mem_cons_of_mem _ hd0, he⟩

theorem dedupGo_mem : ∀ (ps : List Product) (used : List String) (out : List Product),
    dedupProductsGo used ps = Except.ok out →
    ∀ q ∈ out, ∃ p ∈ ps,
      q.id = p.id ∧ q.brand_id = p.brand_id ∧ q.collection_id = p.collection_id := by
  intro ps
  induction ps with
  | nil =>
    intro used out h q hq
    simp only [dedupProductsGo, Except.ok.injEq] at h
    subst h
    simp at hq
  | cons p rest ih =>
    intro used out h q hq
    simp only [dedupProductsGo] at h
    split at h
    · cases hr : dedupProductsGo (addName used p.name) rest with
      | error e => rw [hr] at h; simp [Except.map] at h
      | ok out1 =>
        rw [hr] at h
        simp only [Except.map, Except.ok.injEq] at h
        subst h
        rcases List.mem_cons.mp hq with heq | hq1
        · exact ⟨p, List.mem_cons_self _ _, by rw [heq], by rw [heq], by rw [heq]⟩
        · obtain ⟨p0, hp0, he⟩ := ih _ _ hr q hq1
          exact ⟨p0, List.mem_cons_of_mem _ hp0, he⟩
    · cases hc : colorOf p.colors with
      | error e => rw [hc] at h; simp at h
      | ok color =>
        rw [hc] at h
        dsimp only at h
        cases hs : get_name_suggestions used p.name p.category p.gender color with
        | cons nn tl =>
          rw [hs] at h
          dsimp only at h
          cases hr : dedupProductsGo (addName used nn) rest with
          | error e => rw [hr] at h; simp [Except.map] at h
          | ok out1 =>
            rw [hr] at h
            simp only [Except.map, Except.ok.injEq] at h
            subst h
            rcases List.mem_cons.mp hq with heq | hq1
            · exact ⟨p, List.mem_cons_self _ _, by rw [heq], by rw [heq], by rw [heq]⟩
            · obtain ⟨p0, hp0, he⟩ := ih _ _ hr q hq1
              exact ⟨p0, List.mem_cons_of_mem _ hp0, he⟩
        | nil =>
          rw [hs] at h
          dsimp only at h
          cases hr : dedupProductsGo
              (addName used (p.name ++ " (Style " ++ toString (used.length + 1) ++ ")")) rest with
          | error e => rw [hr] at h; simp [Except.map] at h
          | ok out1 =>
            rw [hr] at h
            simp only [Except.map, Except.ok.injEq] at h
            subst h
            rcases List.mem_cons.mp hq with heq | hq1
            · exact ⟨p, List.mem_cons_self _ _, by rw [heq], by rw [heq], by rw [heq]⟩
            · obtain ⟨p0, hp0, he⟩ := ih _ _ hr q hq1
              exact ⟨p0, List.mem_cons_of_mem _ hp0, he⟩

theorem firstParse_mem {α : Type} (attempts : ℕ → Option α) :
    ∀ (fuel k : ℕ) (ds : α), firstParse attempts k fuel = some ds →
    ∃ j, attempts j = some ds := by
  intro fuel
  induction fuel with
  | zero => intro k ds h; simp [firstParse] at h
  | succ n ih =>
    intro k ds h
    simp only [firstParse] at h
    cases ha : attempts k with
    | some x =>
      rw [ha] at h
      dsimp only at h
      rw [Option.some.injEq] at h
      exact ⟨k, by rw [ha, h]⟩
    | none =>
      rw [ha] at h
      dsimp only at h
      exact ih (k + 1) ds h

theorem batchWithRetry_refs (maxRetries : ℕ) (ids : List String)
    (pattempts : ℕ → Option (List ProductData)) (out : List Product)
    (bs cs : List String)
    (hor : ∀ k ds, pattempts k = some ds →
      ∀ d ∈ ds, d.brand_id ∈ bs ∧ d.collection_id ∈ cs)
    (h : batchWithRetry maxRetries ids pattempts = Except.ok out) :
    ∀ p ∈ out, p.brand_id ∈ bs ∧ p.collection_id ∈ cs := by
  intro p hp
  simp only [batchWithRetry] at h
  cases hf : firstParse pattempts 0 maxRetries with
  | none =>
    rw [hf] at h
    dsimp only at h
    rw [Except.ok.injEq] at h
    subst h
    simp at hp
  | some ds =>
    rw [hf] at h
    dsimp only at h
    obtain ⟨q, hq, _, hqb, hqc⟩ := dedupGo_mem _ _ _ h p hp
    obtain ⟨d2, hd2, hmk⟩ := List.mem_filterMap.mp hq
    obtain ⟨hb2, hc2⟩ := mkProduct_refs d2 q hmk
    obtain ⟨d, hd, hbe, hce⟩ := forceIds_mem ids ds d2 hd2
    obtain ⟨j, hj⟩ := firstParse_mem pattempts maxRetries 0 ds hf
    obtain ⟨hbb, hcc⟩ := hor j ds hj d hd
    exact ⟨by rw [hqb, hb2, hbe]; exact hbb, by rw [hqc, hc2, hce]; exact hcc⟩

theorem generateProductsLoop_refs (maxRetries batchSize totalCount : ℕ)
    (bs cs : List String) (oracle : ℕ → ProductBatchOracle)
    (hor : ∀ bi k ds, (oracle bi).attempts k = some ds →
      ∀ d ∈ ds, d.brand_id ∈ bs ∧ d.collection_id ∈ cs) :
    ∀ (bidxs : List ℕ) (acc : List Product) (used stream : List String)
      (products : List Product) (u2 s2 : List String),
      generateProductsLoop maxRetries batchSize totalCount bs cs oracle bidxs
        acc used stream = RunResult.ok (products, u2, s2) →
      (∀ p ∈ acc, p.brand_id ∈ bs ∧ p.collection_id ∈ cs) →
      ∀ p ∈ products, p.brand_id ∈ bs ∧ p.collection_id ∈ cs := by
  intro bidxs
  induction bidxs with
  | nil =>
    intro acc used stream products u2 s2 h hacc
    simp only [generateProductsLoop, RunResult.ok.injEq, Prod.mk.injEq] at h
    obtain ⟨rfl, rfl, rfl⟩ := h
    exact hacc
  | cons bi rest ih =>
    intro acc used stream products u2 s2 h hacc
    simp only [generateProductsLoop] at h
    cases hgi : generateIds "product" (min batchSize (totalCount - acc.length)) used stream with
    | none => rw [hgi] at h; simp at h
    | some t =>
      obtain ⟨batchIds, used2, stream2⟩ := t
      rw [hgi] at h
      dsimp only at h
      cases hb : batchWithRetry maxRetries batchIds (oracle bi).attempts with
      | error e => rw [hb] at h; simp at h
      | ok batchProducts =>
        rw [hb] at h
        dsimp only at h
        have hacc2 : ∀ p ∈ acc ++ batchProducts,
            p.brand_id ∈ bs ∧ p.collection_id ∈ cs := by
          intro p hp
          rcases List.mem_append.mp hp with hp1 | hp2
          · exact hacc p hp1
          · exact batchWithRetry_refs maxRetries batchIds (oracle bi).attempts
              batchProducts bs cs (fun k ds hds => hor bi k ds hds) hb p hp2
        split at h
        · rw [RunResult.ok.injEq, Prod.mk.injEq] at h
          obtain ⟨rfl, rfl, rfl⟩ := h
          exact hacc2
        · exact ih _ _ _ _ _ _ h hacc2

theorem mkReview_pid (d : ReviewData) (r : Review) (h : mkReview d = some r) :
    r.product_id = d.product_id := by
  obtain ⟨oid, pid, rat, hv, rd, wf⟩ := d
  cases oid with
  | none => simp [mkReview] at h
  | some i =>
    cases rd with
    | none => simp [mkReview] at h
    | some dt =>
      simp only [mkReview] at h
      split at h
      · rw [Option.some.injEq] at h; subst h; rfl
      · simp at h

theorem fillDate_pid (dates : ℕ → String) (i : ℕ) (d : ReviewData) :
    (fillDate dates i d).product_id = d.product_id := by
  obtain ⟨oid, pid, rat, hv, rd, wf⟩ := d
  cases rd <;> rfl

theorem reviewAdjust_mem (dates : ℕ → String) :
    ∀ (ds : List ReviewData) (ids : List String) (i : ℕ) (d2 : ReviewData),
    d2 ∈ reviewAdjust dates ids i ds → ∃ d ∈ ds, d2.product_id = d.product_id := by
  intro ds
  induction ds with
  | nil => intro ids i d2 h; cases ids <;> simp [reviewAdjust] at h
  | cons d rest ih =>
    intro ids i d2 h
    cases ids with
    | nil =>
      rw [reviewAdjust] at h
      rcases List.mem_cons.mp h with heq | h1
      · exact ⟨d, List.mem_cons_self _ _, by rw [heq]; exact fillDate_pid dates i d⟩
      · obtain ⟨d0, hd0, he⟩ := ih [] (i + 1) d2 h1
        exact ⟨d0, List.mem_cons_of_mem _ hd0, he⟩
    | cons e ids0 =>
      rw [reviewAdjust] at h
      rcases List.mem_cons.mp h with heq | h1
      · refine ⟨d, List.mem_cons_self _ _, ?_⟩
        rw [heq]
        exact fillDate_pid dates i { d with id := some e }
      · obtain ⟨d0, hd0, he⟩ := ih ids0 (i + 1) d2 h1
        exact ⟨d0, List.mem_cons_of_mem _ hd0, he⟩

theorem reviewBatchWithRetry_refs (maxRetries : ℕ) (ids : List String)
    (dates : ℕ → String) (attempts : ℕ → Option (List ReviewData))
    (pids : List String)
    (hor : ∀ k ds, attempts k = some ds → ∀ d ∈ ds, d.product_id ∈ pids) :
    ∀ r ∈ reviewBatchWithRetry maxRetries ids dates attempts, r.product_id ∈ pids := by
  intro r hr
  simp only [reviewBatchWithRetry] at hr
  cases hf : firstParse attempts 0 maxRetries with
  | none => rw [hf] at hr; simp at hr
  | some ds =>
    rw [hf] at hr
    dsimp only at hr
    obtain ⟨d2, hd2, hmk⟩ := List.mem_filterMap.mp hr
    obtain ⟨d, hd, he⟩ := reviewAdjust_mem dates ds ids 0 d2 hd2
    obtain ⟨j, hj⟩ := firstParse_mem attempts maxRetries 0 ds hf
    have := hor j ds hj d hd
    rw [mkReview_pid d2 r hmk, he]
    exact this

theorem productReviewsLoop_refs (maxRetries : ℕ) (oracle : ℕ → ReviewBatchOracle)
    (pids : List String)
    (hor : ∀ bj k ds, (oracle bj).attempts k = some ds →
      ∀ d ∈ ds, d.product_id ∈ pids) :
    ∀ (batches : List (ℕ × ℕ)) (used stream : List String)
      (revs : List Review) (u2 s2 : List String),
      productReviewsLoop maxRetries oracle batches used stream = some (revs, u2, s2) →
      ∀ r ∈ revs, r.product_id ∈ pids := by
  intro batches
  induction batches with
  | nil =>
    intro used stream revs u2 s2 h r hr
    simp only [productReviewsLoop, Option.some.injEq, Prod.mk.injEq] at h
    obtain ⟨rfl, rfl, rfl⟩ := h
    simp at hr
  | cons b rest ih =>
    obtain ⟨bj, cnt⟩ := b
    intro used stream revs u2 s2 h r hr
    simp only [productReviewsLoop] at h
    cases hgi : generateIds "review" cnt used stream with
    | none => rw [hgi] at h; simp at h
    | some t =>
      obtain ⟨ids, used2, stream2⟩ := t
      rw [hgi] at h
      dsimp only at h
      cases hrest : productReviewsLoop maxRetries oracle rest used2 stream2 with
      | none => rw [hrest] at h; simp at h
      | some t2 =>
        obtain ⟨more, used3, stream3⟩ := t2
        rw [hrest] at h
        simp only [Option.some.injEq, Prod.mk.injEq] at h
        obtain ⟨rfl, rfl, rfl⟩ := h
        rcases List.mem_append.mp hr with h1 | h2
        · exact reviewBatchWithRetry_refs maxRetries ids (oracle bj).dates
            (oracle bj).attempts pids (fun k ds hds => hor bj k ds hds) r h1
        · exact ih used2 stream2 more used3 stream3 hrest r h2

theorem generateReviewsLoop_refs (maxRetries batchSize rpp : ℕ)
    (oracle : ℕ → ℕ → ReviewBatchOracle) (pids : List String)
    (hor : ∀ pi bj k ds, ((oracle pi bj).attempts k = some ds) →
      ∀ d ∈ ds, d.product_id ∈ pids) :
    ∀ (pl : List (ℕ × Product)) (used stream : List String)
      (revs : List Review) (u2 s2 : List String),
      generateReviewsLoop maxRetries batchSize rpp oracle pl used stream
        = some (revs, u2, s2) →
      ∀ r ∈ revs, r.product_id ∈ pids := by
  intro pl
  induction pl with
  | nil =>
    intro used stream revs u2 s2 h r hr
    simp only [generateReviewsLoop, Option.some.injEq, Prod.mk.injEq] at h
    obtain ⟨rfl, rfl, rfl⟩ := h
    simp at hr
  | cons pp rest ih =>
    obtain ⟨pi, p⟩ := pp
    intro used stream revs u2 s2 h r hr
    simp only [generateReviewsLoop] at h
    cases hpl : productReviewsLoop maxRetries (oracle pi) (batchCounts batchSize rpp).enum
        used stream with
    | none => rw [hpl] at h; simp at h
    | some t =>
      obtain ⟨revs1, used2, stream2⟩ := t
      rw [hpl] at h
      dsimp only at h
      cases hrest : generateReviewsLoop maxRetries batchSize rpp oracle rest used2 stream2 with
      | none => rw [hrest] at h; simp at h
      | some t2 =>
        obtain ⟨more, used3, stream3⟩ := t2
        rw [hrest] at h
        simp only [Option.some.injEq, Prod.mk.injEq] at h
        obtain ⟨rfl, rfl, rfl⟩ := h
        rcases List.mem_append.mp hr with h1 | h2
        · exact productReviewsLoop_refs maxRetries (oracle pi) pids
            (fun bj k ds hds => hor pi bj k ds hds) _ used stream revs1 used2 stream2 hpl r h1
        · exact ih used2 stream2 more used3 stream3 hrest r h2

/-- **C6 (amended).** The orchestrator never overwrites or validates the
payload's reference fields, so referential integrity holds conditionally:
whenever every parsed element's `brand_id` / `collection_id`
(resp. `product_id`) is drawn from the run's brand and collection id lists
(resp. product output) — as when the capability echoes the ids supplied in
the prompt — every kept Product's and Review's references resolve to those
outputs. -/
theorem references_resolve_when_sourced :
    (∀ (maxRetries batchSize totalCount : ℕ) (bs cs : List String)
       (oracle : ℕ → ProductBatchOracle) (stream : List String) (out : List Product),
      generate_products maxRetries batchSize totalCount bs cs oracle stream
        = RunResult.ok out →
      (∀ bi k ds, (oracle bi).attempts k = some ds →
        ∀ d ∈ ds, d.brand_id ∈ bs ∧ d.collection_id ∈ cs) →
      ∀ p ∈ out, p.brand_id ∈ bs ∧ p.collection_id ∈ cs) ∧
    (∀ (maxRetries batchSize rpp : ℕ) (products : List Product)
       (oracle : ℕ → ℕ → ReviewBatchOracle) (stream : List String) (out : List Review),
      generate_reviews maxRetries batchSize products rpp oracle stream = some out →
      (∀ pi bj k ds, ((oracle pi bj).attempts k = some ds) →
        ∀ d ∈ ds, d.product_id ∈ products.map Product.id) →
      ∀ r ∈ out, r.product_id ∈ products.map Product.id) := by
  constructor
  · intro maxRetries batchSize totalCount bs cs oracle stream out h hor p hp
    simp only [generate_products] at h
    cases hl : generateProductsLoop maxRetries batchSize totalCount bs cs oracle
        (List.range ((totalCount + batchSize - 1) / batchSize)) [] [] stream with
    | exn e => rw [hl] at h; simp at h
    | outOfFuel => rw [hl] at h; simp at h
    | ok t =>
      obtain ⟨products, used2, stream2⟩ := t
      rw [hl] at h
      dsimp only at h
      cases hdp : deduplicate_product_names products with
      | error e => rw [hdp] at h; simp at h
      | ok fin =>
        rw [hdp] at h
        dsimp only at h
        rw [RunResult.ok.injEq] at h
        subst h
        have hp2 : p ∈ fin := List.take_subset totalCount fin hp
        obtain ⟨q, hq, _, hqb, hqc⟩ := dedupGo_mem products [] fin hdp p hp2
        have := generateProductsLoop_refs maxRetries batchSize totalCount bs cs oracle hor
          _ [] [] stream products used2 stream2 hl (by intro x hx; simp at hx) q hq
        exact ⟨by rw [hqb]; exact this.1, by rw [hqc]; exact this.2⟩
  · intro maxRetries batchSize rpp products oracle stream out h hor r hr
    simp only [generate_reviews] at h
    cases hl : generateReviewsLoop maxRetries batchSize rpp oracle products.enum [] stream with
    | none => rw [hl] at h; simp at h
    | some t =>
      obtain ⟨revs, used2, stream2⟩ := t
      rw [hl] at h
      simp only [Option.map, Option.some.injEq] at h
      subst h
      exact generateReviewsLoop_refs maxRetries batchSize rpp oracle _ hor
        products.enum [] stream revs used2 stream2 hl r hr

/-- C6 witness oracle: the capability echoes the provided references
`brand_a` / `col_a`. -/
def c6wOracle : ℕ → ProductBatchOracle := fun _ =>
  { brandPick := 0, collectionPick := 0,
    attempts := fun k => if k = 0 then some [mkPD none "E" "brand_a" "col_a"] else none }

/-- Witness for **C6 (amended)**: the product side applied at a concrete
echoing run. -/
theorem references_resolve_when_sourced_witness :
    (mkP "product_s1" "E" "brand_a" "col_a").brand_id ∈ ["brand_a"] ∧
    (mkP "product_s1" "E" "brand_a" "col_a").collection_id ∈ ["col_a"] := by
  refine references_resolve_when_sourced.1 3 1 1 ["brand_a"] ["col_a"] c6wOracle ["s1"]
    [mkP "product_s1" "E" "brand_a" "col_a"] rfl ?_ _ (List.mem_singleton.mpr rfl)
  intro bi k ds hds d hd
  simp only [c6wOracle] at hds
  by_cases hk : k = 0
  · subst hk
    simp at hds
    subst hds
    simp at hd
    subst hd
    exact ⟨by simp [mkPD], by simp [mkPD]⟩
  · rw [if_neg hk] at hds
    exact absurd hds (by simp)

theorem collectionAttemptLoop_empty (cid : String) (attempts : ℕ → Option CollectionData) :
    ∀ (k fuel : ℕ), collectionAttemptLoop [] cid attempts k fuel = none := by
  intro k fuel
  cases fuel with
  | zero => rfl
  | succ n => simp [collectionAttemptLoop]

/-- **C8 (amended).** Zero-parent handling differs by stage: collection
generation with an empty brand id list skips every collection with a
warning and returns no collections, while product generation does not
skip — it substitutes the synthetic placeholder references
`"default_brand"` / `"default_collection"` for the prompt and still runs
the batch. -/
theorem zero_parent_handling :
    (∀ (count : ℕ) (oracle : ℕ → ℕ → Option CollectionData) (stream : List String)
       (out : List Collection),
      generate_collections count [] oracle stream = some out → out = []) ∧
    (∀ pick : ℕ, selectBrandRef [] pick = "default_brand" ∧
      selectCollectionRef [] pick = "default_collection") := by
  constructor
  · intro count oracle stream out h
    simp only [generate_collections] at h
    cases hgi : generateIds "collection" count [] stream with
    | none => rw [hgi] at h; simp at h
    | some t =>
      obtain ⟨cids, used2, rest⟩ := t
      rw [hgi] at h
      dsimp only at h
      rw [Option.some.injEq] at h
      subst h
      apply List.filterMap_eq_nil_iff.mpr
      intro ic _
      exact collectionAttemptLoop_empty ic.2 (oracle ic.1) 0 3
  · intro pick
    exact ⟨rfl, rfl⟩

/-- Witness for **C8 (amended)**: a one-collection run with an empty brand
id list yields no collections, and the product-side selector substitutes
the placeholder. -/
theorem zero_parent_handling_witness :
    ([] : List Collection) = [] ∧ selectBrandRef [] 7 = "default_brand" :=
  ⟨zero_parent_handling.1 1 (fun _ _ => none) ["s1"] [] rfl,
   (zero_parent_handling.2 7).1⟩

end Catalog
